import Mathlib

/- Formal model of the payroll engine in `enhanced_payroll.py` (namespace `EP`)
   and `payroll_system.py` (namespace `PS`).  Monetary amounts, rates and hours
   are modelled as exact rationals (`ℚ`): Python float arithmetic is idealised
   as exact real arithmetic.  `roundCent` models
   `Decimal(str(x)).quantize(Decimal('0.01'), ROUND_HALF_UP)` from
   `payroll_system.py` (round half away from zero at the cent); `pyRound2`
   models Python's builtin `round(x, 2)` (round half to even) used in
   `enhanced_payroll.py`.  Python exceptions are modelled by `Except PErr`. -/

/-- Filing statuses, as in the `FilingStatus` enum of both source files. -/
inductive FilingStatus where
  | single
  | marriedJointly
  | marriedSeparately
  | headOfHousehold
deriving DecidableEq

/-- One row of a progressive tax table: an upper limit (`none` models
`float('inf')`) and a marginal rate.  Mirrors the `{"limit": .., "rate": ..}`
dicts of the source. -/
structure TaxBracket where
  limit : Option ℚ
  rate : ℚ
deriving DecidableEq

/-- The 2024 federal bracket tables (`FEDERAL_TAX_BRACKETS` in
`payroll_system.py`; `enhanced_payroll.py` contains the identical `SINGLE` and
`MARRIED_JOINTLY` tables). -/
def FEDERAL_TAX_BRACKETS : FilingStatus → List TaxBracket
  | .single =>
      [⟨some 11600, 0.10⟩, ⟨some 47150, 0.12⟩, ⟨some 100525, 0.22⟩,
       ⟨some 191950, 0.24⟩, ⟨some 243725, 0.32⟩, ⟨some 609350, 0.35⟩,
       ⟨none, 0.37⟩]
  | .marriedJointly =>
      [⟨some 23200, 0.10⟩, ⟨some 94300, 0.12⟩, ⟨some 201050, 0.22⟩,
       ⟨some 383900, 0.24⟩, ⟨some 487450, 0.32⟩, ⟨some 731200, 0.35⟩,
       ⟨none, 0.37⟩]
  | .marriedSeparately =>
      [⟨some 11600, 0.10⟩, ⟨some 47150, 0.12⟩, ⟨some 100525, 0.22⟩,
       ⟨some 191950, 0.24⟩, ⟨some 243725, 0.32⟩, ⟨some 365600, 0.35⟩,
       ⟨none, 0.37⟩]
  | .headOfHousehold =>
      [⟨some 16550, 0.10⟩, ⟨some 63100, 0.12⟩, ⟨some 100500, 0.22⟩,
       ⟨some 191950, 0.24⟩, ⟨some 243700, 0.32⟩, ⟨some 609350, 0.35⟩,
       ⟨none, 0.37⟩]

/-- 2024 standard deductions (`STANDARD_DEDUCTIONS`, identical in both files). -/
def STANDARD_DEDUCTIONS : FilingStatus → ℚ
  | .single => 14600
  | .marriedJointly => 29200
  | .marriedSeparately => 14600
  | .headOfHousehold => 21900

/-- FICA constants, identical in both files. -/
def SOCIAL_SECURITY_RATE : ℚ := 0.062

def MEDICARE_RATE : ℚ := 0.0145

def ADDITIONAL_MEDICARE_RATE : ℚ := 0.009

def SOCIAL_SECURITY_WAGE_BASE : ℚ := 168600

def ADDITIONAL_MEDICARE_THRESHOLD : ℚ := 200000

/-- Exceptions raised by the source (`PayrollError` and its uses; `keyError`
models a Python `KeyError` on a missing dict key). -/
inductive PErr where
  | payrollError (msg : String)
  | keyError
deriving DecidableEq

/-- Round half away from zero at the cent: `EnhancedPayrollCalculator._round_currency`
in `payroll_system.py` (`Decimal.quantize(Decimal('0.01'), ROUND_HALF_UP)`). -/
def roundCent (x : ℚ) : ℚ :=
  if 0 ≤ x then (⌊x * 100 + 1/2⌋ : ℚ) / 100
  else -((⌊(-x) * 100 + 1/2⌋ : ℚ) / 100)

/-- Round half to even at integer precision, the rounding of Python's builtin
`round` on the exact value. -/
def roundHalfEvenInt (y : ℚ) : ℤ :=
  if y - ⌊y⌋ < 1/2 then ⌊y⌋
  else if 1/2 < y - ⌊y⌋ then ⌊y⌋ + 1
  else if ⌊y⌋ % 2 = 0 then ⌊y⌋ else ⌊y⌋ + 1

/-- Python's `round(x, 2)`, used by `enhanced_payroll.py` when building the
`PaystubResult`. -/
def pyRound2 (x : ℚ) : ℚ := (roundHalfEvenInt (x * 100) : ℚ) / 100

/-- Loop of `_calculate_tax_from_brackets` (textually identical in both files):
arguments are the accumulator `tax`, `income_remaining`, `previous_limit` and
the bracket list still to visit.  A bracket whose limit is `inf` always
consumes the whole remaining amount and then breaks (in Python,
`min(rem, inf - prev) = rem` and the following `rem <= 0` check fires), which
is what the `none` case returns directly. -/
def calcTaxFromBracketsAux (tax rem prev : ℚ) : List TaxBracket → ℚ
  | [] => tax
  | b :: rest =>
    match b.limit with
    | none => tax + rem * b.rate
    | some l =>
      let taxable := min rem (l - prev)
      let tax' := tax + taxable * b.rate
      let rem' := rem - taxable
      if rem' ≤ 0 then tax' else calcTaxFromBracketsAux tax' rem' l rest

/-- `_calculate_tax_from_brackets(income, brackets)` of both source files. -/
def calcTaxFromBrackets (income : ℚ) (brackets : List TaxBracket) : ℚ :=
  calcTaxFromBracketsAux 0 income 0 brackets

/-- The same loop written in the exception monad.  The Python body of
`_calculate_tax_from_brackets` contains no `raise` and no failing operation,
so every step is `Except.ok`. -/
def calcTaxFromBracketsAuxE (tax rem prev : ℚ) : List TaxBracket → Except PErr ℚ
  | [] => Except.ok tax
  | b :: rest =>
    match b.limit with
    | none => Except.ok (tax + rem * b.rate)
    | some l =>
      let taxable := min rem (l - prev)
      let tax' := tax + taxable * b.rate
      let rem' := rem - taxable
      if rem' ≤ 0 then Except.ok tax' else calcTaxFromBracketsAuxE tax' rem' l rest

/-- `_calculate_tax_from_brackets` seen as a Python call that could in
principle raise: it never does. -/
def calcTaxFromBracketsE (income : ℚ) (brackets : List TaxBracket) : Except PErr ℚ :=
  calcTaxFromBracketsAuxE 0 income 0 brackets

/-- Association-list lookup, modelling Python `dict` access
(`d.get(k)` / `d[k]`). -/
def findK {β : Type} : List (String × β) → String → Option β
  | [], _ => none
  | p :: rest, k => if p.1 = k then some p.2 else findK rest k

/-- Association-list update of an existing key, modelling `d[k] = v`. -/
def setK {β : Type} : List (String × β) → String → β → List (String × β)
  | [], _, _ => []
  | p :: rest, k, v => if p.1 = k then (p.1, v) :: rest else p :: setK rest k v

namespace PS

/-- `PayFrequency` enum of `payroll_system.py`. -/
inductive PayFrequency where
  | weekly
  | biWeekly
  | semiMonthly
  | monthly
deriving DecidableEq

/-- The `periods_per_year` attribute of each `PayFrequency` member. -/
def PayFrequency.periodsPerYear : PayFrequency → ℚ
  | .weekly => 52
  | .biWeekly => 26
  | .semiMonthly => 24
  | .monthly => 12

/-- `State` enum of `payroll_system.py`. -/
inductive USState where
  | texas
  | california
  | florida
  | newYork
  | colorado
deriving DecidableEq

/-- The `max_rate` attribute of each `State` member. -/
def USState.max_rate : USState → ℚ
  | .texas => 0
  | .california => 0.10
  | .florida => 0
  | .newYork => 0.085
  | .colorado => 0.045

/-- The `standard_deduction` attribute of each `State` member. -/
def USState.standard_deduction : USState → ℚ
  | .texas => 0
  | .california => 5202
  | .florida => 0
  | .newYork => 8000
  | .colorado => 0

/-- `PreTaxDeductions` dataclass of `payroll_system.py`. -/
structure PreTaxDeductions where
  health_insurance : ℚ := 0
  dental_insurance : ℚ := 0
  vision_insurance : ℚ := 0
  retirement_401k : ℚ := 0
  retirement_403b : ℚ := 0
  hsa : ℚ := 0
  fsa : ℚ := 0
  parking : ℚ := 0
  transit : ℚ := 0
  life_insurance : ℚ := 0

def PreTaxDeductions.total (d : PreTaxDeductions) : ℚ :=
  d.health_insurance + d.dental_insurance + d.vision_insurance +
    d.retirement_401k + d.retirement_403b + d.hsa + d.fsa +
    d.parking + d.transit + d.life_insurance

/-- `PostTaxDeductions` dataclass of `payroll_system.py`. -/
structure PostTaxDeductions where
  roth_401k : ℚ := 0
  union_dues : ℚ := 0
  charitable_contributions : ℚ := 0
  garnishments : ℚ := 0

def PostTaxDeductions.total (d : PostTaxDeductions) : ℚ :=
  d.roth_401k + d.union_dues + d.charitable_contributions + d.garnishments

/-- `W2Employee` dataclass of `payroll_system.py` (identity and date fields
that play no role in the computation are omitted; `allowances` is `ℕ`, its
constructor validates `allowances >= 0`). -/
structure W2Employee where
  name : String := ""
  pay_rate : ℚ := 0
  salary : ℚ := 0
  is_salaried : Bool := false
  pay_frequency : PayFrequency := .biWeekly
  filing_status : FilingStatus := .single
  allowances : ℕ := 0
  additional_withholding : ℚ := 0
  state : USState := .texas
  pre_tax_deductions : PreTaxDeductions := {}
  post_tax_deductions : PostTaxDeductions := {}
  is_exempt_from_federal : Bool := false
  is_exempt_from_state : Bool := false

/-- `PayrollEntry` dataclass of `payroll_system.py` (identifier and date
strings omitted; only the numeric payload is modelled). -/
structure PayrollEntry where
  hours_worked : ℚ := 0
  overtime_hours : ℚ := 0
  gross_pay : ℚ := 0
  pre_tax_deductions : ℚ := 0
  taxable_income : ℚ := 0
  federal_tax : ℚ := 0
  social_security_tax : ℚ := 0
  medicare_tax : ℚ := 0
  additional_medicare_tax : ℚ := 0
  state_tax : ℚ := 0
  post_tax_deductions : ℚ := 0
  total_deductions : ℚ := 0
  net_pay : ℚ := 0
  ytd_gross : ℚ := 0

/-- `EnhancedPayrollCalculator.calculate_federal_withholding`. -/
def calculate_federal_withholding (taxable_income : ℚ) (filing_status : FilingStatus)
    (allowances : ℕ) (pay_frequency : PayFrequency) (additional_withholding : ℚ)
    (is_exempt : Bool) : ℚ :=
  if is_exempt then 0
  else
    let annual_taxable := taxable_income * pay_frequency.periodsPerYear
    let annual_taxable_after_deduction := max 0 (annual_taxable - STANDARD_DEDUCTIONS filing_status)
    let annual_taxable_final := max 0 (annual_taxable_after_deduction - (allowances : ℚ) * 4700)
    let annual_tax := calcTaxFromBrackets annual_taxable_final (FEDERAL_TAX_BRACKETS filing_status)
    roundCent (annual_tax / pay_frequency.periodsPerYear + additional_withholding)

/-- `EnhancedPayrollCalculator.calculate_state_tax` (the `filing_status`
parameter is accepted and unused, exactly as in the source). -/
def calculate_state_tax (taxable_income : ℚ) (state : USState)
    (_filing_status : FilingStatus) (pay_frequency : PayFrequency)
    (is_exempt : Bool) : ℚ :=
  if is_exempt ∨ state.max_rate = 0 then 0
  else
    let annual_income := taxable_income * pay_frequency.periodsPerYear
    let state_taxable := max 0 (annual_income - state.standard_deduction)
    let rate :=
      if state = .california then
        if state_taxable ≤ 20000 then 0.01
        else if state_taxable ≤ 50000 then 0.02
        else if state_taxable ≤ 100000 then 0.04
        else state.max_rate
      else state.max_rate
    roundCent (state_taxable * rate / pay_frequency.periodsPerYear)

/-- `EnhancedPayrollCalculator.calculate_fica_taxes`: returns
`(ss_tax, medicare_tax, additional_medicare_tax)`. -/
def calculate_fica_taxes (gross_pay ytd_earnings : ℚ) : ℚ × ℚ × ℚ :=
  let ss_taxable_earnings := min gross_pay (max 0 (SOCIAL_SECURITY_WAGE_BASE - ytd_earnings))
  let ss_tax := roundCent (ss_taxable_earnings * SOCIAL_SECURITY_RATE)
  let medicare_tax := roundCent (gross_pay * MEDICARE_RATE)
  let additional_medicare_tax :=
    if ADDITIONAL_MEDICARE_THRESHOLD < ytd_earnings + gross_pay then
      roundCent (min gross_pay (ytd_earnings + gross_pay - ADDITIONAL_MEDICARE_THRESHOLD) *
        ADDITIONAL_MEDICARE_RATE)
    else 0
  (ss_tax, medicare_tax, additional_medicare_tax)

/-- `EnhancedPayrollCalculator.calculate_gross_pay`. -/
def calculate_gross_pay (employee : W2Employee) (hours_worked overtime_hours : ℚ) : ℚ :=
  if employee.is_salaried then
    roundCent (employee.salary / employee.pay_frequency.periodsPerYear)
  else
    roundCent (hours_worked * employee.pay_rate + overtime_hours * employee.pay_rate * 1.5)

/-- `EnhancedPayrollCalculator.process_w2_payroll` (the `ytd_data` dict is
represented by its only consulted entry, `'gross_earnings'`). -/
def process_w2_payroll (employee : W2Employee) (hours_worked overtime_hours : ℚ)
    (ytd_gross_earnings : ℚ) : Except PErr PayrollEntry :=
  if hours_worked < 0 ∨ overtime_hours < 0 then
    Except.error (.payrollError "Hours cannot be negative")
  else
    let gross_pay := calculate_gross_pay employee hours_worked overtime_hours
    let pre_tax_total := roundCent employee.pre_tax_deductions.total
    let taxable_income := max 0 (gross_pay - pre_tax_total)
    let federal_tax := calculate_federal_withholding taxable_income employee.filing_status
      employee.allowances employee.pay_frequency employee.additional_withholding
      employee.is_exempt_from_federal
    let fica := calculate_fica_taxes gross_pay ytd_gross_earnings
    let state_tax := calculate_state_tax taxable_income employee.state employee.filing_status
      employee.pay_frequency employee.is_exempt_from_state
    let post_tax_total := roundCent employee.post_tax_deductions.total
    let total_tax_deductions := federal_tax + fica.1 + fica.2.1 + fica.2.2 + state_tax
    let total_deductions := pre_tax_total + total_tax_deductions + post_tax_total
    let net_pay := roundCent (gross_pay - total_deductions)
    Except.ok
      { hours_worked := hours_worked
        overtime_hours := overtime_hours
        gross_pay := gross_pay
        pre_tax_deductions := pre_tax_total
        taxable_income := taxable_income
        federal_tax := federal_tax
        social_security_tax := fica.1
        medicare_tax := fica.2.1
        additional_medicare_tax := fica.2.2
        state_tax := state_tax
        post_tax_deductions := post_tax_total
        total_deductions := total_deductions
        net_pay := net_pay
        ytd_gross := ytd_gross_earnings + gross_pay }

end PS

namespace EP

/-- The `FEDERAL_TAX_BRACKETS` dict of `enhanced_payroll.py` holds only the
`SINGLE` and `MARRIED_JOINTLY` keys (their tables are textually identical to
the `payroll_system.py` ones); accessing any other status raises `KeyError`,
which the `Option` models. -/
def federalTaxBracketsDict : FilingStatus → Option (List TaxBracket)
  | .single => some (FEDERAL_TAX_BRACKETS .single)
  | .marriedJointly => some (FEDERAL_TAX_BRACKETS .marriedJointly)
  | _ => none

/-- `PreTaxDeductions` dataclass of `enhanced_payroll.py`. -/
structure PreTaxDeductions where
  health_insurance : ℚ := 0
  dental_insurance : ℚ := 0
  retirement_401k : ℚ := 0
  hsa : ℚ := 0

def PreTaxDeductions.total (d : PreTaxDeductions) : ℚ :=
  d.health_insurance + d.dental_insurance + d.retirement_401k + d.hsa

/-- `W2Employee` dataclass of `enhanced_payroll.py` (the generated `id` is the
key under which the employee is stored in the system maps; `allowances : ℕ`
reflects the `allowances >= 0` validation). -/
structure W2Employee where
  name : String := ""
  pay_rate : ℚ := 0
  filing_status : FilingStatus := .single
  allowances : ℕ := 0
  state_tax_rate : ℚ := 0
  pre_tax_deductions : PreTaxDeductions := {}

/-- `Contractor` dataclass of `enhanced_payroll.py`. -/
structure Contractor where
  name : String := ""
  pay_rate : ℚ := 0

/-- `PaystubResult` dataclass of `enhanced_payroll.py`. -/
structure PaystubResult where
  employee_name : String := ""
  employee_type : String := ""
  hours_worked : ℚ := 0
  gross_pay : ℚ := 0
  pre_tax_deductions : ℚ := 0
  taxable_income : ℚ := 0
  federal_tax : ℚ := 0
  social_security_tax : ℚ := 0
  medicare_tax : ℚ := 0
  additional_medicare_tax : ℚ := 0
  state_tax : ℚ := 0
  total_deductions : ℚ := 0
  net_pay : ℚ := 0

/-- `PayrollCalculator.calculate_federal_withholding` of `enhanced_payroll.py`
(bi-weekly cadence `26` is hard-coded; no rounding, no extra withholding, no
exemption flag). -/
def calculate_federal_withholding (taxable_income : ℚ) (filing_status : FilingStatus)
    (allowances : ℕ) : Except PErr ℚ :=
  let annual_taxable := taxable_income * 26
  let annual_taxable_after_deduction := max 0 (annual_taxable - STANDARD_DEDUCTIONS filing_status)
  let annual_taxable_final := max 0 (annual_taxable_after_deduction - (allowances : ℚ) * 4700)
  match federalTaxBracketsDict filing_status with
  | none => Except.error .keyError
  | some brackets => Except.ok (calcTaxFromBrackets annual_taxable_final brackets / 26)

/-- `PayrollCalculator.calculate_fica_taxes` of `enhanced_payroll.py`: returns
the unrounded `(ss_tax, medicare_tax, additional_medicare_tax)`. -/
def calculate_fica_taxes (gross_pay ytd_earnings : ℚ) : ℚ × ℚ × ℚ :=
  let ss_taxable_earnings := min gross_pay (max 0 (SOCIAL_SECURITY_WAGE_BASE - ytd_earnings))
  let ss_tax := ss_taxable_earnings * SOCIAL_SECURITY_RATE
  let medicare_tax := gross_pay * MEDICARE_RATE
  let additional_medicare_tax :=
    if ADDITIONAL_MEDICARE_THRESHOLD < ytd_earnings + gross_pay then
      min gross_pay (ytd_earnings + gross_pay - ADDITIONAL_MEDICARE_THRESHOLD) *
        ADDITIONAL_MEDICARE_RATE
    else 0
  (ss_tax, medicare_tax, additional_medicare_tax)

/-- `PayrollCalculator.calculate_state_tax` of `enhanced_payroll.py`. -/
def calculate_state_tax (taxable_income state_rate : ℚ) : ℚ :=
  taxable_income * state_rate

/-- `PayrollCalculator.process_w2_payroll` of `enhanced_payroll.py`: the
intermediate amounts are computed unrounded and every `PaystubResult` field is
then rounded with Python's builtin `round(x, 2)`. -/
def process_w2_payroll (employee : W2Employee) (hours_worked : ℚ)
    (ytd_earnings : ℚ) : Except PErr PaystubResult :=
  if hours_worked < 0 then Except.error (.payrollError "Hours worked cannot be negative")
  else
    let gross_pay := hours_worked * employee.pay_rate
    let pre_tax_total := employee.pre_tax_deductions.total
    let taxable_income := max 0 (gross_pay - pre_tax_total)
    match calculate_federal_withholding taxable_income employee.filing_status
        employee.allowances with
    | Except.error e => Except.error e
    | Except.ok federal_tax =>
      let fica := calculate_fica_taxes gross_pay ytd_earnings
      let state_tax := calculate_state_tax taxable_income employee.state_tax_rate
      let total_tax_deductions := federal_tax + fica.1 + fica.2.1 + fica.2.2 + state_tax
      let total_deductions := pre_tax_total + total_tax_deductions
      let net_pay := gross_pay - total_deductions
      Except.ok
        { employee_name := employee.name
          employee_type := "W-2 Employee"
          hours_worked := hours_worked
          gross_pay := pyRound2 gross_pay
          pre_tax_deductions := pyRound2 pre_tax_total
          taxable_income := pyRound2 taxable_income
          federal_tax := pyRound2 federal_tax
          social_security_tax := pyRound2 fica.1
          medicare_tax := pyRound2 fica.2.1
          additional_medicare_tax := pyRound2 fica.2.2
          state_tax := pyRound2 state_tax
          total_deductions := pyRound2 total_deductions
          net_pay := pyRound2 net_pay }

/-- `PayrollCalculator.process_1099_payroll` of `enhanced_payroll.py`. -/
def process_1099_payroll (contractor : Contractor) (hours_worked : ℚ) :
    Except PErr PaystubResult :=
  if hours_worked < 0 then Except.error (.payrollError "Hours worked cannot be negative")
  else
    let gross_pay := hours_worked * contractor.pay_rate
    Except.ok
      { employee_name := contractor.name
        employee_type := "1099 Contractor"
        hours_worked := hours_worked
        gross_pay := pyRound2 gross_pay
        net_pay := pyRound2 gross_pay }

/-- The two employee variants stored in `PayrollSystem.employees` (the
`isinstance` dispatch in `process_payroll` covers exactly these two). -/
inductive Emp where
  | w2 (e : W2Employee)
  | contractor (c : Contractor)

/-- State of a `PayrollSystem` instance: the `employees` dict and the
`ytd_earnings` dict, both keyed by employee id. -/
structure SystemState where
  employees : List (String × Emp)
  ytd_earnings : List (String × ℚ)

/-- Accesses of `process_payroll` to the `ytd_earnings` map (the YTD ledger),
recorded so that access ordering is statable. -/
inductive LedgerOp where
  | read (employee_id : String)
  | commit (employee_id : String) (amount : ℚ)
deriving DecidableEq

/-- `PayrollSystem.process_payroll` of `enhanced_payroll.py`.  Returns the
Python return value (or raised exception), the state of the system after the
call, and the trace of its `ytd_earnings` accesses, in order: the method looks
the employee up (raising `PayrollError` if absent), reads the ytd value with
`.get(employee_id, 0.0)`, dispatches to the calculator, and on success adds
`result.gross_pay` to `ytd_earnings[employee_id]` (a `KeyError` if the key is
absent, as with Python's `+=`). -/
def process_payroll (s : SystemState) (employee_id : String) (hours_worked : ℚ) :
    Except PErr PaystubResult × SystemState × List LedgerOp :=
  match findK s.employees employee_id with
  | none =>
      (Except.error (.payrollError ("Employee with ID " ++ employee_id ++ " not found")), s, [])
  | some emp =>
    let ytd := (findK s.ytd_earnings employee_id).getD 0
    let result :=
      match emp with
      | .w2 e => process_w2_payroll e hours_worked ytd
      | .contractor c => process_1099_payroll c hours_worked
    match result with
    | Except.error e => (Except.error e, s, [.read employee_id])
    | Except.ok r =>
      match findK s.ytd_earnings employee_id with
      | none => (Except.error .keyError, s, [.read employee_id])
      | some y =>
          (Except.ok r,
           { s with ytd_earnings := setK s.ytd_earnings employee_id (y + r.gross_pay) },
           [.read employee_id, .commit employee_id r.gross_pay])

end EP

/-- The strictly-increasing-limits well-formedness relation on adjacent
brackets: a finite limit is below a later finite limit, and `inf` is above
every finite limit and never followed by anything. -/
def TaxBracket.limLt (b c : TaxBracket) : Prop :=
  match b.limit, c.limit with
  | some a, some a' => a < a'
  | some _, none => True
  | none, _ => False

/-- A bracket table has strictly increasing limits. -/
def strictLimits : List TaxBracket → Prop
  | [] => True
  | [_] => True
  | b :: c :: rest => TaxBracket.limLt b c ∧ strictLimits (c :: rest)

/-- All rates of a bracket table are non-negative. -/
def ratesNonneg (bs : List TaxBracket) : Prop := ∀ b ∈ bs, 0 ≤ b.rate

/-- Sum of per-bracket contributions: each bracket taxes the portion of `x`
lying between the previous limit `prev` and its own limit at its own rate
(spec: "the sum of per-bracket contributions"). -/
def bracketSumFrom (x : ℚ) : ℚ → List TaxBracket → ℚ
  | _, [] => 0
  | prev, b :: rest =>
    match b.limit with
    | none => (x - min x prev) * b.rate
    | some l => (min x l - min x prev) * b.rate + bracketSumFrom x l rest

/-- Sum of per-bracket contributions of the whole table, from limit `0`. -/
def bracketSum (x : ℚ) (bs : List TaxBracket) : ℚ := bracketSumFrom x 0 bs

/-- Modelled from the spec (section 4.2): the single withholding algorithm —
annualize, subtract the deduction floor clamped at zero, subtract the
allowance amount clamped at zero, evaluate the brackets progressively,
de-annualize, add the extra flat withholding, round to the cent — that the
spec says implements both federal withholding and jurisdictional income tax
when instantiated with the appropriate table and floor. -/
def withholdingAlg (base : ℚ) (brackets : List TaxBracket) (deduction_floor : ℚ)
    (allowances : ℕ) (periods : ℚ) (extra : ℚ) (is_exempt : Bool) : ℚ :=
  if is_exempt then 0
  else
    roundCent (calcTaxFromBrackets
      (max 0 (max 0 (base * periods - deduction_floor) - (allowances : ℚ) * 4700))
      brackets / periods + extra)

/-- The tier table of `calculate_state_tax`'s California branch read as a
bracket table, and a one-bracket table at the flat rate for every other
state. -/
def stateBracketTable : PS.USState → List TaxBracket
  | .california => [⟨some 20000, 0.01⟩, ⟨some 50000, 0.02⟩, ⟨some 100000, 0.04⟩, ⟨none, 0.10⟩]
  | st => [⟨none, st.max_rate⟩]

/-- Modelled from the spec (section 4.2, last sentence): jurisdictional income
tax as the shared withholding algorithm instantiated with the jurisdiction's
own bracket table and deduction floor (and no allowances or extra
withholding). -/
def stateTaxSharedSpec (taxable_income : ℚ) (state : PS.USState)
    (pay_frequency : PS.PayFrequency) (is_exempt : Bool) : ℚ :=
  withholdingAlg taxable_income (stateBracketTable state) state.standard_deduction 0
    pay_frequency.periodsPerYear 0 is_exempt

/-- An amount is a whole number of cents. -/
def IsCent (x : ℚ) : Prop := ∃ n : ℤ, x = (n : ℚ) / 100

theorem isCent_zero : IsCent 0 := ⟨0, by norm_num⟩

theorem IsCent.add {a b : ℚ} (ha : IsCent a) (hb : IsCent b) : IsCent (a + b) := by
  obtain ⟨n, rfl⟩ := ha
  obtain ⟨m, rfl⟩ := hb
  exact ⟨n + m, by push_cast; ring⟩

theorem IsCent.sub {a b : ℚ} (ha : IsCent a) (hb : IsCent b) : IsCent (a - b) := by
  obtain ⟨n, rfl⟩ := ha
  obtain ⟨m, rfl⟩ := hb
  exact ⟨n - m, by push_cast; ring⟩

theorem isCent_roundCent (x : ℚ) : IsCent (roundCent x) := by
  unfold roundCent
  split
  · exact ⟨⌊x * 100 + 1/2⌋, rfl⟩
  · exact ⟨-⌊(-x) * 100 + 1/2⌋, by push_cast; ring⟩

theorem roundCent_intCast_div (n : ℤ) : roundCent ((n : ℚ) / 100) = (n : ℚ) / 100 := by
  have h100 : ((n : ℚ) / 100) * 100 = (n : ℚ) := div_mul_cancel₀ _ (by norm_num)
  unfold roundCent
  split
  · rw [h100, Int.floor_int_add]
    norm_num
  · have h : (-((n : ℚ) / 100)) * 100 + 1/2 = ((-n : ℤ) : ℚ) + 1/2 := by push_cast; linarith
    rw [h, Int.floor_int_add]
    push_cast
    norm_num
    ring

theorem IsCent.roundCent_eq {x : ℚ} (h : IsCent x) : roundCent x = x := by
  obtain ⟨n, rfl⟩ := h
  exact roundCent_intCast_div n

theorem roundCent_zero : roundCent 0 = 0 := isCent_zero.roundCent_eq

theorem isCent_calculate_gross_pay (e : PS.W2Employee) (hw ot : ℚ) :
    IsCent (PS.calculate_gross_pay e hw ot) := by
  unfold PS.calculate_gross_pay
  split <;> exact isCent_roundCent _

theorem isCent_calculate_federal_withholding (t : ℚ) (fs : FilingStatus) (a : ℕ)
    (p : PS.PayFrequency) (aw : ℚ) (ex : Bool) :
    IsCent (PS.calculate_federal_withholding t fs a p aw ex) := by
  unfold PS.calculate_federal_withholding
  split
  · exact isCent_zero
  · exact isCent_roundCent _

theorem isCent_calculate_state_tax (t : ℚ) (st : PS.USState) (fs : FilingStatus)
    (p : PS.PayFrequency) (ex : Bool) :
    IsCent (PS.calculate_state_tax t st fs p ex) := by
  unfold PS.calculate_state_tax
  split
  · exact isCent_zero
  · exact isCent_roundCent _

theorem isCent_fica_ss (g y : ℚ) : IsCent (PS.calculate_fica_taxes g y).1 :=
  isCent_roundCent _

theorem isCent_fica_medicare (g y : ℚ) : IsCent (PS.calculate_fica_taxes g y).2.1 :=
  isCent_roundCent _

theorem isCent_fica_additional (g y : ℚ) : IsCent (PS.calculate_fica_taxes g y).2.2 := by
  show IsCent (if _ then _ else _)
  split
  · exact isCent_roundCent _
  · exact isCent_zero

/-- Sample hourly employee of `payroll_system.py` (hourly, bi-weekly, single,
Texas, no deductions). -/
def psSample : PS.W2Employee := { name := "Ann", pay_rate := 25 }

/-- Sample employee of `enhanced_payroll.py` whose pay makes the independently
rounded components disagree with the rounded pre-summed net pay. -/
def cxEmployee : EP.W2Employee := { name := "Cx", pay_rate := 10.1 }

/-- C1 (as stated, refuted on `enhanced_payroll.py`): processing the sample
employee for 10 hours yields a `PaystubResult` whose `net_pay` is `93.27`
while gross pay minus the sum of the independently rounded itemized
components (pre-tax total, federal, Social Security, Medicare, additional
Medicare, state; this calculator has no post-tax deductions) is `93.28`:
`PayrollCalculator.process_w2_payroll` sums the unrounded components and
rounds the pre-summed value, so the identity over the returned rounded
components fails by a cent. -/
theorem EP_netPay_rounding_mismatch :
    Except.map (fun r => (r.net_pay,
        r.gross_pay - (r.pre_tax_deductions + r.federal_tax + r.social_security_tax +
          r.medicare_tax + r.additional_medicare_tax + r.state_tax)))
      (EP.process_w2_payroll cxEmployee 10 0) = Except.ok ((93.27 : ℚ), (93.28 : ℚ)) ∧
    (93.27 : ℚ) ≠ 93.28 := by
  constructor
  · norm_num [EP.process_w2_payroll, EP.calculate_federal_withholding,
      EP.federalTaxBracketsDict, FEDERAL_TAX_BRACKETS, STANDARD_DEDUCTIONS,
      calcTaxFromBrackets, calcTaxFromBracketsAux, EP.calculate_fica_taxes,
      SOCIAL_SECURITY_RATE, MEDICARE_RATE, ADDITIONAL_MEDICARE_RATE,
      SOCIAL_SECURITY_WAGE_BASE, ADDITIONAL_MEDICARE_THRESHOLD,
      EP.calculate_state_tax, EP.PreTaxDeductions.total, cxEmployee,
      pyRound2, roundHalfEvenInt, Except.map, min_def, max_def]
  · norm_num

/-- C1 (amended, proved on `payroll_system.py`): every `PayrollEntry`
successfully produced by `EnhancedPayrollCalculator.process_w2_payroll`
satisfies the exact identity `net_pay = gross_pay - (pre_tax + federal + ss +
medicare + additional_medicare + state + post_tax)`, and every itemized
component of the entry is a whole number of cents (each was rounded
independently before the summation). -/
theorem PS_netPay_identity (e : PS.W2Employee) (hw ot ytd : ℚ) (entry : PS.PayrollEntry)
    (h : PS.process_w2_payroll e hw ot ytd = Except.ok entry) :
    entry.net_pay = entry.gross_pay - (entry.pre_tax_deductions + entry.federal_tax +
      entry.social_security_tax + entry.medicare_tax + entry.additional_medicare_tax +
      entry.state_tax + entry.post_tax_deductions) ∧
    IsCent entry.gross_pay ∧ IsCent entry.pre_tax_deductions ∧ IsCent entry.federal_tax ∧
    IsCent entry.social_security_tax ∧ IsCent entry.medicare_tax ∧
    IsCent entry.additional_medicare_tax ∧ IsCent entry.state_tax ∧
    IsCent entry.post_tax_deductions := by
  unfold PS.process_w2_payroll at h
  split at h
  · simp at h
  · rw [Except.ok.injEq] at h
    subst h
    refine ⟨?_, isCent_calculate_gross_pay e hw ot,
      isCent_roundCent e.pre_tax_deductions.total,
      isCent_calculate_federal_withholding
        (max 0 (PS.calculate_gross_pay e hw ot - roundCent e.pre_tax_deductions.total))
        e.filing_status e.allowances e.pay_frequency e.additional_withholding
        e.is_exempt_from_federal,
      isCent_fica_ss (PS.calculate_gross_pay e hw ot) ytd,
      isCent_fica_medicare (PS.calculate_gross_pay e hw ot) ytd,
      isCent_fica_additional (PS.calculate_gross_pay e hw ot) ytd,
      isCent_calculate_state_tax
        (max 0 (PS.calculate_gross_pay e hw ot - roundCent e.pre_tax_deductions.total))
        e.state e.filing_status e.pay_frequency e.is_exempt_from_state,
      isCent_roundCent e.post_tax_deductions.total⟩
    have hc : IsCent (PS.calculate_gross_pay e hw ot -
        (roundCent e.pre_tax_deductions.total +
          (PS.calculate_federal_withholding (max 0 (PS.calculate_gross_pay e hw ot -
              roundCent e.pre_tax_deductions.total)) e.filing_status e.allowances
              e.pay_frequency e.additional_withholding e.is_exempt_from_federal +
            (PS.calculate_fica_taxes (PS.calculate_gross_pay e hw ot) ytd).1 +
            (PS.calculate_fica_taxes (PS.calculate_gross_pay e hw ot) ytd).2.1 +
            (PS.calculate_fica_taxes (PS.calculate_gross_pay e hw ot) ytd).2.2 +
            PS.calculate_state_tax (max 0 (PS.calculate_gross_pay e hw ot -
              roundCent e.pre_tax_deductions.total)) e.state e.filing_status
              e.pay_frequency e.is_exempt_from_state) +
          roundCent e.post_tax_deductions.total)) :=
      (isCent_calculate_gross_pay e hw ot).sub
        (((isCent_roundCent _).add
          (((((isCent_calculate_federal_withholding _ _ _ _ _ _).add
              (isCent_fica_ss _ _)).add (isCent_fica_medicare _ _)).add
              (isCent_fica_additional _ _)).add
            (isCent_calculate_state_tax _ _ _ _ _))).add (isCent_roundCent _))
    show roundCent _ = _
    rw [hc.roundCent_eq]
    ring

/-- C1 witness: the sample employee processed for zero hours succeeds with the
all-zero entry, for which the net-pay identity holds. -/
theorem PS_netPay_identity_witness :
    PS.process_w2_payroll psSample 0 0 0 = Except.ok ({} : PS.PayrollEntry) ∧
    ({} : PS.PayrollEntry).net_pay = ({} : PS.PayrollEntry).gross_pay -
      (({} : PS.PayrollEntry).pre_tax_deductions + ({} : PS.PayrollEntry).federal_tax +
        ({} : PS.PayrollEntry).social_security_tax + ({} : PS.PayrollEntry).medicare_tax +
        ({} : PS.PayrollEntry).additional_medicare_tax + ({} : PS.PayrollEntry).state_tax +
        ({} : PS.PayrollEntry).post_tax_deductions) := by
  have h : PS.process_w2_payroll psSample 0 0 0 = Except.ok ({} : PS.PayrollEntry) := by
    norm_num [PS.process_w2_payroll, PS.calculate_gross_pay, PS.calculate_federal_withholding,
      PS.calculate_state_tax, PS.calculate_fica_taxes, PS.PayFrequency.periodsPerYear,
      PS.USState.max_rate, PS.USState.standard_deduction, PS.PreTaxDeductions.total,
      PS.PostTaxDeductions.total, psSample, roundCent, calcTaxFromBrackets,
      calcTaxFromBracketsAux, FEDERAL_TAX_BRACKETS, STANDARD_DEDUCTIONS,
      SOCIAL_SECURITY_RATE, MEDICARE_RATE, ADDITIONAL_MEDICARE_RATE,
      SOCIAL_SECURITY_WAGE_BASE, ADDITIONAL_MEDICARE_THRESHOLD, min_def, max_def]
  exact ⟨h, (PS_netPay_identity psSample 0 0 0 {} h).1⟩

/-- C2: for period gross pay `g ≥ 0` and prior-year YTD gross `y ≥ 0`, the
Social-Security-style capped tax of `calculate_fica_taxes` equals
`min(g, max(0, wageBase - y)) * rate` rounded to the cent; it is `0` whenever
`y` has reached the wage base, and with `y = wageBase - 500` and `g = 1200`
exactly `500` of the `1200` is taxed (tax `31.00`). -/
theorem socialSecurity_cap_formula (g y : ℚ) (hg : 0 ≤ g) (_hy : 0 ≤ y) :
    (PS.calculate_fica_taxes g y).1 =
      roundCent (min g (max 0 (SOCIAL_SECURITY_WAGE_BASE - y)) * SOCIAL_SECURITY_RATE) ∧
    (SOCIAL_SECURITY_WAGE_BASE ≤ y → (PS.calculate_fica_taxes g y).1 = 0) ∧
    (PS.calculate_fica_taxes 1200 (SOCIAL_SECURITY_WAGE_BASE - 500)).1 =
      roundCent (500 * SOCIAL_SECURITY_RATE) ∧
    (PS.calculate_fica_taxes 1200 (SOCIAL_SECURITY_WAGE_BASE - 500)).1 = 31 := by
  refine ⟨rfl, ?_, ?_, ?_⟩
  · intro hcap
    show roundCent _ = 0
    rw [max_eq_left (by linarith), min_eq_right hg, zero_mul, roundCent_zero]
  · show roundCent _ = _
    norm_num [SOCIAL_SECURITY_WAGE_BASE, min_def, max_def]
  · show roundCent _ = _
    norm_num [SOCIAL_SECURITY_WAGE_BASE, SOCIAL_SECURITY_RATE, roundCent,
      min_def, max_def]

/-- C2 witness: the formula instantiated at `g = 1200`,
`y = wageBase - 500 ≥ 0`. -/
theorem socialSecurity_cap_formula_witness :
    (0 : ℚ) ≤ 1200 ∧ (0 : ℚ) ≤ SOCIAL_SECURITY_WAGE_BASE - 500 ∧
    (PS.calculate_fica_taxes 1200 (SOCIAL_SECURITY_WAGE_BASE - 500)).1 = 31 := by
  refine ⟨by norm_num, by norm_num [SOCIAL_SECURITY_WAGE_BASE], ?_⟩
  exact (socialSecurity_cap_formula 1200 (SOCIAL_SECURITY_WAGE_BASE - 500) (by norm_num)
    (by norm_num [SOCIAL_SECURITY_WAGE_BASE])).2.2.2

/-- C3: for period gross pay `g ≥ 0` and prior-year YTD gross `y ≥ 0`, the
additional-Medicare-style surtax of `calculate_fica_taxes` is `0` while
`y + g` stays at or below the threshold, and otherwise equals
`min(g, (y + g) - threshold) * rate` rounded to the cent; with
`y = threshold - 3000` and `g = 5000` exactly `2000` of the `5000` is taxed
(tax `18.00`). -/
theorem additionalMedicare_threshold_formula (g y : ℚ) (_hg : 0 ≤ g) (_hy : 0 ≤ y) :
    (y + g ≤ ADDITIONAL_MEDICARE_THRESHOLD → (PS.calculate_fica_taxes g y).2.2 = 0) ∧
    (ADDITIONAL_MEDICARE_THRESHOLD < y + g →
      (PS.calculate_fica_taxes g y).2.2 =
        roundCent (min g (y + g - ADDITIONAL_MEDICARE_THRESHOLD) *
          ADDITIONAL_MEDICARE_RATE)) ∧
    (PS.calculate_fica_taxes 5000 (ADDITIONAL_MEDICARE_THRESHOLD - 3000)).2.2 =
      roundCent (2000 * ADDITIONAL_MEDICARE_RATE) ∧
    (PS.calculate_fica_taxes 5000 (ADDITIONAL_MEDICARE_THRESHOLD - 3000)).2.2 = 18 := by
  refine ⟨?_, ?_, ?_, ?_⟩
  · intro hle
    show (if ADDITIONAL_MEDICARE_THRESHOLD < y + g then
        roundCent (min g (y + g - ADDITIONAL_MEDICARE_THRESHOLD) * ADDITIONAL_MEDICARE_RATE)
      else 0) = 0
    rw [if_neg (by linarith)]
  · intro hlt
    show (if ADDITIONAL_MEDICARE_THRESHOLD < y + g then
        roundCent (min g (y + g - ADDITIONAL_MEDICARE_THRESHOLD) * ADDITIONAL_MEDICARE_RATE)
      else 0) = _
    rw [if_pos hlt]
  · norm_num [PS.calculate_fica_taxes, ADDITIONAL_MEDICARE_THRESHOLD, min_def]
  · norm_num [PS.calculate_fica_taxes, ADDITIONAL_MEDICARE_THRESHOLD,
      ADDITIONAL_MEDICARE_RATE, roundCent, min_def]

/-- C3 witness: the formula instantiated at `g = 5000`,
`y = threshold - 3000 ≥ 0`. -/
theorem additionalMedicare_threshold_formula_witness :
    (0 : ℚ) ≤ 5000 ∧ (0 : ℚ) ≤ ADDITIONAL_MEDICARE_THRESHOLD - 3000 ∧
    (PS.calculate_fica_taxes 5000 (ADDITIONAL_MEDICARE_THRESHOLD - 3000)).2.2 = 18 := by
  refine ⟨by norm_num, by norm_num [ADDITIONAL_MEDICARE_THRESHOLD], ?_⟩
  exact (additionalMedicare_threshold_formula 5000 (ADDITIONAL_MEDICARE_THRESHOLD - 3000)
    (by norm_num) (by norm_num [ADDITIONAL_MEDICARE_THRESHOLD])).2.2.2

/-- C4: `EnhancedPayrollCalculator.calculate_federal_withholding` implements
exactly the spec's algorithm: `0` when exempt, otherwise annualize the taxable
base, subtract the standard deduction clamped at zero, subtract the allowance
amount clamped at zero, evaluate the filing category's brackets, de-annualize,
add the extra flat withholding and round to the cent — i.e. the shared
withholding algorithm instantiated with the federal table and floor. -/
theorem federal_withholding_algorithm (t : ℚ) (fs : FilingStatus) (a : ℕ)
    (p : PS.PayFrequency) (extra : ℚ) (ex : Bool) :
    PS.calculate_federal_withholding t fs a p extra ex =
      withholdingAlg t (FEDERAL_TAX_BRACKETS fs) (STANDARD_DEDUCTIONS fs) a
        p.periodsPerYear extra ex := rfl

theorem calcAux_nil (t r p : ℚ) : calcTaxFromBracketsAux t r p [] = t := rfl

theorem calcAux_none (t r p br : ℚ) (rest : List TaxBracket) :
    calcTaxFromBracketsAux t r p (⟨none, br⟩ :: rest) = t + r * br := rfl

theorem calcAux_some (t r p l br : ℚ) (rest : List TaxBracket) :
    calcTaxFromBracketsAux t r p (⟨some l, br⟩ :: rest) =
      if r - min r (l - p) ≤ 0 then t + min r (l - p) * br
      else calcTaxFromBracketsAux (t + min r (l - p) * br) (r - min r (l - p)) l rest := rfl

theorem bsf_nil (x p : ℚ) : bracketSumFrom x p [] = 0 := rfl

theorem bsf_none (x p br : ℚ) (rest : List TaxBracket) :
    bracketSumFrom x p (⟨none, br⟩ :: rest) = (x - min x p) * br := rfl

theorem bsf_some (x p l br : ℚ) (rest : List TaxBracket) :
    bracketSumFrom x p (⟨some l, br⟩ :: rest) =
      (min x l - min x p) * br + bracketSumFrom x l rest := rfl

theorem strictLimits_tail (b : TaxBracket) (rest : List TaxBracket)
    (h : strictLimits (b :: rest)) : strictLimits rest := by
  cases rest with
  | nil => trivial
  | cons c rest' => exact h.2

theorem ratesNonneg_head {b : TaxBracket} {rest : List TaxBracket}
    (h : ratesNonneg (b :: rest)) : 0 ≤ b.rate :=
  h b (List.mem_cons_self b rest)

theorem ratesNonneg_tail {b : TaxBracket} {rest : List TaxBracket}
    (h : ratesNonneg (b :: rest)) : ratesNonneg rest :=
  fun c hc => h c (List.mem_cons_of_mem b hc)

theorem strictLimits_gt {l br : ℚ} (rest : List TaxBracket)
    (h : strictLimits (⟨some l, br⟩ :: rest)) :
    ∀ c ∈ rest, ∀ l', c.limit = some l' → l < l' := by
  induction rest generalizing l br with
  | nil => intro c hc; cases hc
  | cons c rest' IH =>
    intro d hd l' hd'
    obtain ⟨cl, cr⟩ := c
    rcases List.mem_cons.1 hd with h1 | h1
    · subst h1
      cases cl with
      | none => cases hd'
      | some cl' =>
        have : l < cl' := h.1
        rw [Option.some.injEq] at hd'
        rw [hd'] at this
        exact this
    · cases cl with
      | none =>
        cases rest' with
        | nil => cases h1
        | cons e rest'' => exact absurd h.2.1 (by simp [TaxBracket.limLt])
      | some cl' =>
        have hlc : l < cl' := h.1
        exact lt_trans hlc (IH h.2 d h1 l' hd')

theorem bracketSumFrom_eq_zero {x : ℚ} (bs : List TaxBracket) :
    ∀ p : ℚ, x ≤ p → (∀ c ∈ bs, ∀ l', c.limit = some l' → x ≤ l') →
      bracketSumFrom x p bs = 0 := by
  induction bs with
  | nil => intro p _ _; rfl
  | cons b rest IH =>
    intro p hxp hall
    obtain ⟨bl, br⟩ := b
    cases bl with
    | none => rw [bsf_none, min_eq_left hxp, sub_self, zero_mul]
    | some l =>
      have hxl : x ≤ l := hall ⟨some l, br⟩ (List.mem_cons_self _ _) l rfl
      rw [bsf_some, min_eq_left hxp, min_eq_left hxl, sub_self, zero_mul, zero_add]
      exact IH l hxl (fun c hc l' he => hall c (List.mem_cons_of_mem _ hc) l' he)

theorem bracketSumFrom_nonneg {x : ℚ} (bs : List TaxBracket) :
    ∀ p : ℚ, ratesNonneg bs → strictLimits bs →
      (∀ c ∈ bs, ∀ l', c.limit = some l' → p ≤ l') →
      0 ≤ bracketSumFrom x p bs := by
  induction bs with
  | nil => intro p _ _ _; exact le_refl 0
  | cons b rest IH =>
    intro p hrates hstrict hall
    obtain ⟨bl, br⟩ := b
    cases bl with
    | none =>
      rw [bsf_none]
      exact mul_nonneg (sub_nonneg.2 (min_le_left x p)) (ratesNonneg_head hrates)
    | some l =>
      have hpl : p ≤ l := hall ⟨some l, br⟩ (List.mem_cons_self _ _) l rfl
      rw [bsf_some]
      refine add_nonneg (mul_nonneg (sub_nonneg.2 (min_le_min (le_refl x) hpl))
        (ratesNonneg_head hrates)) ?_
      exact IH l (ratesNonneg_tail hrates) (strictLimits_tail _ _ hstrict)
        (fun c hc l' he => le_of_lt (strictLimits_gt rest hstrict c hc l' he))

theorem aux_decomp (bs : List TaxBracket) :
    ∀ p x t : ℚ, p ≤ x → strictLimits bs →
      calcTaxFromBracketsAux t (x - p) p bs = t + bracketSumFrom x p bs := by
  induction bs with
  | nil => intro p x t _ _; rw [calcAux_nil, bsf_nil, add_zero]
  | cons b rest IH =>
    intro p x t hpx hstrict
    obtain ⟨bl, br⟩ := b
    cases bl with
    | none => rw [calcAux_none, bsf_none, min_eq_right hpx]
    | some l =>
      rw [calcAux_some, bsf_some, min_sub_sub_right, min_eq_right hpx]
      have hrem : x - p - (min x l - p) = x - min x l := by ring
      rw [hrem]
      by_cases hc : x - min x l ≤ 0
      · rw [if_pos hc]
        have hxl : x ≤ l := (le_min_iff.1 (by linarith : x ≤ min x l)).2
        rw [min_eq_left hxl]
        rw [bracketSumFrom_eq_zero rest l hxl
          (fun c hc' l' he => le_of_lt (lt_of_le_of_lt hxl
            (strictLimits_gt rest hstrict c hc' l' he)))]
        ring
      · rw [if_neg hc]
        have hmin : min x l < x := by linarith [min_le_left x l]
        have hlx : l < x := by
          rcases min_lt_iff.1 hmin with h' | h'
          · exact absurd h' (lt_irrefl x)
          · exact h'
        rw [min_eq_right (le_of_lt hlx)]
        rw [IH l x (t + (l - p) * br) (le_of_lt hlx) (strictLimits_tail _ _ hstrict)]
        ring

theorem bracketSumFrom_mono {x1 x2 : ℚ} (bs : List TaxBracket) :
    ∀ p : ℚ, strictLimits bs → ratesNonneg bs → p ≤ x1 → x1 ≤ x2 →
      bracketSumFrom x1 p bs ≤ bracketSumFrom x2 p bs := by
  induction bs with
  | nil => intro p _ _ _ _; exact le_refl 0
  | cons b rest IH =>
    intro p hstrict hrates hpx1 h12
    have hpx2 : p ≤ x2 := le_trans hpx1 h12
    obtain ⟨bl, br⟩ := b
    cases bl with
    | none =>
      rw [bsf_none, bsf_none, min_eq_right hpx1, min_eq_right hpx2]
      exact mul_le_mul_of_nonneg_right (by linarith) (ratesNonneg_head hrates)
    | some l =>
      rw [bsf_some, bsf_some, min_eq_right hpx1, min_eq_right hpx2]
      have hterm : (min x1 l - p) * br ≤ (min x2 l - p) * br :=
        mul_le_mul_of_nonneg_right
          (by linarith [min_le_min h12 (le_refl l)]) (ratesNonneg_head hrates)
      by_cases hl : l ≤ x1
      · exact add_le_add hterm
          (IH l (strictLimits_tail _ _ hstrict) (ratesNonneg_tail hrates) hl h12)
      · have hx1l : x1 ≤ l := le_of_lt (lt_of_not_le hl)
        have hz : bracketSumFrom x1 l rest = 0 :=
          bracketSumFrom_eq_zero rest l hx1l
            (fun c hc l' he => le_of_lt (lt_of_le_of_lt hx1l
              (strictLimits_gt rest hstrict c hc l' he)))
        rw [hz]
        exact add_le_add hterm
          (bracketSumFrom_nonneg rest l (ratesNonneg_tail hrates)
            (strictLimits_tail _ _ hstrict)
            (fun c hc l' he => le_of_lt (strictLimits_gt rest hstrict c hc l' he)))

/-- C5 (as stated, refuted): a one-bracket table with strictly increasing
limits but a negative rate makes `_calculate_tax_from_brackets` strictly
decreasing: with amounts `0 ≤ 5` the output drops from `0` to `-5`, so the
claim's monotonicity — stated for every table with strictly increasing limits,
with no constraint on the rates — fails. -/
theorem bracketTax_not_monotone_negative_rate :
    strictLimits [⟨some 10, -1⟩] ∧ (0 : ℚ) ≤ 0 ∧ (0 : ℚ) ≤ 5 ∧
    ¬ calcTaxFromBrackets 0 [⟨some 10, -1⟩] ≤ calcTaxFromBrackets 5 [⟨some 10, -1⟩] := by
  refine ⟨trivial, le_refl 0, by norm_num, ?_⟩
  norm_num [calcTaxFromBrackets, calcTaxFromBracketsAux, min_def]

/-- C5 (amended, adding that the rates are non-negative, which the refuting
table violates): for every bracket table with strictly increasing limits and
non-negative rates and all amounts `0 ≤ x ≤ y`,
`_calculate_tax_from_brackets` on `x` equals the sum over brackets of the
portion of `x` falling within that bracket times the bracket's rate, and the
output at `x` is at most the output at `y`. -/
theorem bracketTax_decomposition_monotone (bs : List TaxBracket) (x y : ℚ)
    (hstrict : strictLimits bs) (hrates : ratesNonneg bs) (hx : 0 ≤ x) (hxy : x ≤ y) :
    calcTaxFromBrackets x bs = bracketSum x bs ∧
    calcTaxFromBrackets x bs ≤ calcTaxFromBrackets y bs := by
  have hdx := aux_decomp bs 0 x 0 hx hstrict
  have hdy := aux_decomp bs 0 y 0 (le_trans hx hxy) hstrict
  rw [sub_zero, zero_add] at hdx hdy
  unfold calcTaxFromBrackets bracketSum
  rw [hdx, hdy]
  exact ⟨rfl, bracketSumFrom_mono bs 0 hstrict hrates hx hxy⟩

/-- Well-formed two-bracket table used to instantiate the bracket laws. -/
def wfTable : List TaxBracket := [⟨some 10, 0.1⟩, ⟨none, 0.2⟩]

/-- C5 witness: the decomposition and monotonicity instantiated on a concrete
well-formed table at `x = 4`, `y = 20`. -/
theorem bracketTax_decomposition_monotone_witness :
    strictLimits wfTable ∧ ratesNonneg wfTable ∧ (0 : ℚ) ≤ 4 ∧ (4 : ℚ) ≤ 20 ∧
    (calcTaxFromBrackets 4 wfTable = bracketSum 4 wfTable ∧
      calcTaxFromBrackets 4 wfTable ≤ calcTaxFromBrackets 20 wfTable) := by
  have hstrict : strictLimits wfTable := ⟨trivial, trivial⟩
  have hrates : ratesNonneg wfTable := by
    intro b hb
    rcases List.mem_cons.1 hb with h | h
    · rw [h]; norm_num
    · rcases List.mem_cons.1 h with h' | h'
      · rw [h']; norm_num
      · cases h'
  exact ⟨hstrict, hrates, by norm_num, by norm_num,
    bracketTax_decomposition_monotone wfTable 4 20 hstrict hrates (by norm_num) (by norm_num)⟩

theorem calcAuxE_some (t r p l br : ℚ) (rest : List TaxBracket) :
    calcTaxFromBracketsAuxE t r p (⟨some l, br⟩ :: rest) =
      if r - min r (l - p) ≤ 0 then Except.ok (t + min r (l - p) * br)
      else calcTaxFromBracketsAuxE (t + min r (l - p) * br) (r - min r (l - p)) l rest := rfl

theorem calcAuxE_eq_ok (bs : List TaxBracket) :
    ∀ t r p : ℚ, calcTaxFromBracketsAuxE t r p bs =
      Except.ok (calcTaxFromBracketsAux t r p bs) := by
  induction bs with
  | nil => intro t r p; rfl
  | cons b rest IH =>
    intro t r p
    obtain ⟨bl, br⟩ := b
    cases bl with
    | none => rfl
    | some l =>
      rw [calcAuxE_some, calcAux_some]
      by_cases hc : r - min r (l - p) ≤ 0
      · rw [if_pos hc, if_pos hc]
      · rw [if_neg hc, if_neg hc, IH]

/-- C6 (as stated, refuted): `_calculate_tax_from_brackets` contains no
validation — the code of both files defines no `ConfigurationError` at all.
On a negative amount (`-5`) it silently returns `-0.50`, and on a table with
non-increasing limits (`10` then `5`) and amount `20` it silently returns
`0.50`; neither malformed input raises anything. -/
theorem bracketTax_malformed_input_no_error :
    calcTaxFromBracketsE (-5) [⟨some 10, 0.1⟩] = Except.ok (-(1/2) : ℚ) ∧
    calcTaxFromBracketsE 20 [⟨some 10, 0.1⟩, ⟨some 5, 0.1⟩] = Except.ok (1/2 : ℚ) := by
  constructor <;> norm_num [calcTaxFromBracketsE, calcTaxFromBracketsAuxE, min_def]

/-- C6 (amended): `_calculate_tax_from_brackets` is pure and total — viewed as
a Python call that could raise, it returns `ok` of its numeric result on every
input whatsoever (well-formed or not); it never raises, and in particular
never raises a `ConfigurationError`, which does not exist in the code. -/
theorem bracketTax_total_no_error (income : ℚ) (bs : List TaxBracket) :
    calcTaxFromBracketsE income bs = Except.ok (calcTaxFromBrackets income bs) :=
  calcAuxE_eq_ok bs 0 income 0

/-- Sample hourly employee of `enhanced_payroll.py` (bi-weekly single filer,
rate 35, no deductions, no state tax). -/
def sampleW2 : EP.W2Employee := { name := "Jane", pay_rate := 35 }

/-- A `PayrollSystem` holding `sampleW2` under id `"e1"` with zero YTD. -/
def sampleState : EP.SystemState :=
  { employees := [("e1", EP.Emp.w2 sampleW2)], ytd_earnings := [("e1", 0)] }

/-- C7 (as stated, refuted): calling `process_payroll` with negative hours
does raise the validation error and leaves the state unchanged, but its ledger
trace is `[read "e1"]`, not `[]`: the YTD snapshot is read *before* the hours
validation (which happens inside the calculator), so the error is not raised
before every ledger read. -/
theorem process_payroll_reads_ledger_before_validation :
    (EP.process_payroll sampleState "e1" (-1)).1 =
      Except.error (PErr.payrollError "Hours worked cannot be negative") ∧
    (EP.process_payroll sampleState "e1" (-1)).2.1 = sampleState ∧
    (EP.process_payroll sampleState "e1" (-1)).2.2 = [EP.LedgerOp.read "e1"] := by
  refine ⟨?_, ?_, ?_⟩ <;>
    norm_num [EP.process_payroll, sampleState, findK, EP.process_w2_payroll]

/-- C7 (amended): for every stored worker (of either variant), calling
`process_payroll` with negative hours raises the validation error before any
tax computation and before any ledger *commit*, and leaves every YTD total
(and the whole system state) unchanged — but the YTD ledger is read once
before the validation fires. -/
theorem process_payroll_negative_hours_aborts (s : EP.SystemState) (eid : String)
    (emp : EP.Emp) (hours : ℚ) (hemp : findK s.employees eid = some emp)
    (hneg : hours < 0) :
    (EP.process_payroll s eid hours).1 =
      Except.error (PErr.payrollError "Hours worked cannot be negative") ∧
    (EP.process_payroll s eid hours).2.1 = s ∧
    (EP.process_payroll s eid hours).2.2 = [EP.LedgerOp.read eid] := by
  cases emp with
  | w2 e =>
    have hres : EP.process_w2_payroll e hours ((findK s.ytd_earnings eid).getD 0) =
        Except.error (PErr.payrollError "Hours worked cannot be negative") := by
      unfold EP.process_w2_payroll
      rw [if_pos hneg]
    simp only [EP.process_payroll, hemp, hres]
    exact ⟨trivial, trivial, trivial⟩
  | contractor c =>
    have hres : EP.process_1099_payroll c hours =
        Except.error (PErr.payrollError "Hours worked cannot be negative") := by
      unfold EP.process_1099_payroll
      rw [if_pos hneg]
    simp only [EP.process_payroll, hemp, hres]
    exact ⟨trivial, trivial, trivial⟩

/-- C7 witness: the abort behaviour instantiated on the sample system at
`-1` hours. -/
theorem process_payroll_negative_hours_aborts_witness :
    findK sampleState.employees "e1" = some (EP.Emp.w2 sampleW2) ∧ (-1 : ℚ) < 0 ∧
    (EP.process_payroll sampleState "e1" (-1)).2.1 = sampleState := by
  have hemp : findK sampleState.employees "e1" = some (EP.Emp.w2 sampleW2) := by
    norm_num [sampleState, findK]
  exact ⟨hemp, by norm_num,
    (process_payroll_negative_hours_aborts sampleState "e1" (EP.Emp.w2 sampleW2) (-1)
      hemp (by norm_num)).2.1⟩

/-- C10: processing an employee id that is not in the system raises
`PayrollError` mentioning the id, returns before touching the YTD ledger
(empty trace) and leaves the employee map and every YTD total unchanged. -/
theorem process_payroll_unknown_employee (s : EP.SystemState) (eid : String) (hours : ℚ)
    (h : findK s.employees eid = none) :
    EP.process_payroll s eid hours =
      (Except.error (PErr.payrollError ("Employee with ID " ++ eid ++ " not found")),
        s, []) := by
  unfold EP.process_payroll
  rw [h]

/-- A `PayrollSystem` with no employees. -/
def emptyState : EP.SystemState := { employees := [], ytd_earnings := [] }

/-- C10 witness: the unknown-id behaviour instantiated on the empty system. -/
theorem process_payroll_unknown_employee_witness :
    findK emptyState.employees "ghost" = none ∧
    EP.process_payroll emptyState "ghost" 8 =
      (Except.error (PErr.payrollError ("Employee with ID " ++ "ghost" ++ " not found")),
        emptyState, []) := by
  have h : findK emptyState.employees "ghost" = none := rfl
  exact ⟨h, process_payroll_unknown_employee emptyState "ghost" 8 h⟩

theorem max_zero_idem (a : ℚ) : max 0 (max 0 a) = max 0 a :=
  max_eq_right (le_max_left 0 a)

/-- C8 (as stated, refuted): for California, `calculate_state_tax` selects one
tier rate and applies it to the *whole* annualized base instead of evaluating
the tiers progressively: at the base whose annualized value is `35202`
(taxable `30000` after the `5202` floor) the code returns `23.08` per
bi-weekly period (flat `2%` on all of `30000`), while the shared
federal-style algorithm on California's tier table and floor returns `15.38`
(progressive `1%` on the first `20000` and `2%` on the next `10000`). -/
theorem state_tax_california_not_bracket_alg :
    PS.calculate_state_tax (35202/26) PS.USState.california FilingStatus.single
        PS.PayFrequency.biWeekly false = 23.08 ∧
    stateTaxSharedSpec (35202/26) PS.USState.california PS.PayFrequency.biWeekly false
        = 15.38 ∧
    PS.calculate_state_tax (35202/26) PS.USState.california FilingStatus.single
        PS.PayFrequency.biWeekly false ≠
      stateTaxSharedSpec (35202/26) PS.USState.california PS.PayFrequency.biWeekly false := by
  have h1 : PS.calculate_state_tax (35202/26) PS.USState.california FilingStatus.single
      PS.PayFrequency.biWeekly false = 23.08 := by
    norm_num [PS.calculate_state_tax, PS.USState.max_rate, PS.USState.standard_deduction,
      PS.PayFrequency.periodsPerYear, roundCent, max_def]
  have h2 : stateTaxSharedSpec (35202/26) PS.USState.california PS.PayFrequency.biWeekly
      false = 15.38 := by
    norm_num [stateTaxSharedSpec, withholdingAlg, stateBracketTable,
      PS.USState.standard_deduction, PS.PayFrequency.periodsPerYear, calcTaxFromBrackets,
      calcTaxFromBracketsAux, roundCent, min_def, max_def]
  exact ⟨h1, h2, by rw [h1, h2]; norm_num⟩

/-- C8 (amended): for every jurisdiction other than California the state tax
does equal the shared federal-style withholding algorithm instantiated with a
one-bracket table at the state's flat rate and the state's deduction floor
(zero allowances, zero extra withholding); California's hard-coded
tiered-flat-rate branch breaks the equivalence, and the two computations are
separate implementations in the source. -/
theorem state_tax_flat_states_shared_alg (t : ℚ) (st : PS.USState) (fs : FilingStatus)
    (p : PS.PayFrequency) (ex : Bool) (hst : st ≠ PS.USState.california) :
    PS.calculate_state_tax t st fs p ex = stateTaxSharedSpec t st p ex := by
  cases st
  case california => exact absurd rfl hst
  all_goals
    cases ex <;>
      norm_num +decide [PS.calculate_state_tax, stateTaxSharedSpec, withholdingAlg, stateBracketTable,
        PS.USState.max_rate, PS.USState.standard_deduction, calcTaxFromBrackets,
        calcAux_none, roundCent_zero, max_zero_idem]

/-- C8 witness: the flat-state equivalence instantiated for New York at a
concrete base. -/
theorem state_tax_flat_states_shared_alg_witness :
    PS.USState.newYork ≠ PS.USState.california ∧
    PS.calculate_state_tax 1000 PS.USState.newYork FilingStatus.single
        PS.PayFrequency.biWeekly false =
      stateTaxSharedSpec 1000 PS.USState.newYork PS.PayFrequency.biWeekly false :=
  ⟨by decide,
    state_tax_flat_states_shared_alg 1000 PS.USState.newYork FilingStatus.single
      PS.PayFrequency.biWeekly false (by decide)⟩

theorem findK_setK {β : Type} (l : List (String × β)) (k : String) (v : β) (w : β)
    (hw : findK l k = some w) : findK (setK l k v) k = some v := by
  induction l with
  | nil => cases hw
  | cons p rest IH =>
    by_cases hpk : p.1 = k
    · show findK (if p.1 = k then (p.1, v) :: rest else p :: setK rest k v) k = some v
      rw [if_pos hpk]
      show (if p.1 = k then some v else findK rest k) = some v
      rw [if_pos hpk]
    · show findK (if p.1 = k then (p.1, v) :: rest else p :: setK rest k v) k = some v
      rw [if_neg hpk]
      show (if p.1 = k then some p.2 else findK (setK rest k v) k) = some v
      rw [if_neg hpk]
      have hw' : findK rest k = some w := by
        have heq : findK (p :: rest) k = if p.1 = k then some p.2 else findK rest k := rfl
        rw [heq, if_neg hpk] at hw
        exact hw
      exact IH hw'

/-- C9 (as stated, refuted): processing the sample worker (rate 35, 40 hours,
zero prior YTD) twice with identical inputs gives *identical* contribution
taxes on both calls — `(86.80, 20.30, 0)` both times — because both calls stay
far below the wage-base cap and the surtax threshold; the second call's
contribution taxes do not differ from the first's for every such pair. -/
theorem second_call_fica_can_be_equal :
    Except.map (fun r : EP.PaystubResult =>
        (r.social_security_tax, r.medicare_tax, r.additional_medicare_tax))
      (EP.process_payroll sampleState "e1" 40).1 =
        Except.ok ((86.8 : ℚ), (20.3 : ℚ), (0 : ℚ)) ∧
    Except.map (fun r : EP.PaystubResult =>
        (r.social_security_tax, r.medicare_tax, r.additional_medicare_tax))
      (EP.process_payroll ((EP.process_payroll sampleState "e1" 40).2.1) "e1" 40).1 =
        Except.ok ((86.8 : ℚ), (20.3 : ℚ), (0 : ℚ)) := by
  constructor <;>
    norm_num [EP.process_payroll, sampleState, sampleW2, findK, setK,
      EP.process_w2_payroll, EP.calculate_federal_withholding, EP.federalTaxBracketsDict,
      FEDERAL_TAX_BRACKETS, STANDARD_DEDUCTIONS, calcTaxFromBrackets,
      calcTaxFromBracketsAux, EP.calculate_fica_taxes, SOCIAL_SECURITY_RATE,
      MEDICARE_RATE, ADDITIONAL_MEDICARE_RATE, SOCIAL_SECURITY_WAGE_BASE,
      ADDITIONAL_MEDICARE_THRESHOLD, EP.calculate_state_tax, EP.PreTaxDeductions.total,
      pyRound2, roundHalfEvenInt, Except.map, min_def, max_def]

/-- High earner of `enhanced_payroll.py` whose YTD sits 500 below the
Social Security wage base. -/
def nearCapW2 : EP.W2Employee := { name := "Hi", pay_rate := 30 }

/-- A `PayrollSystem` holding `nearCapW2` under id `"e1"` with YTD `168100`
(`500` below the `168600` wage base). -/
def nearCapState : EP.SystemState :=
  { employees := [("e1", EP.Emp.w2 nearCapW2)], ytd_earnings := [("e1", 168100)] }

/-- C9 (amended): `process_payroll` is not idempotent — every successful call
commits its gross pay on top of the worker's previous YTD total, so an
identical second call runs against a shifted YTD baseline; the second call's
contribution taxes differ from the first's when that shift interacts with the
wage-base cap or surtax threshold (near the cap the first call withholds
Social Security tax `31.00` and the identical second call `0`), though they
coincide while both calls stay strictly below cap and threshold. -/
theorem process_payroll_updates_ytd_not_idempotent (s : EP.SystemState) (eid : String)
    (hours : ℚ) (r : EP.PaystubResult) (s' : EP.SystemState) (tr : List EP.LedgerOp)
    (h : EP.process_payroll s eid hours = (Except.ok r, s', tr)) :
    findK s'.ytd_earnings eid = some ((findK s.ytd_earnings eid).getD 0 + r.gross_pay) ∧
    Except.map EP.PaystubResult.social_security_tax
        (EP.process_payroll nearCapState "e1" 40).1 = Except.ok 31 ∧
    Except.map EP.PaystubResult.social_security_tax
        (EP.process_payroll ((EP.process_payroll nearCapState "e1" 40).2.1) "e1" 40).1 =
      Except.ok 0 := by
  refine ⟨?_, ?_, ?_⟩
  · rcases hfe : findK s.employees eid with _ | emp
    · unfold EP.process_payroll at h
      rw [hfe] at h
      simp at h
    · unfold EP.process_payroll at h
      rw [hfe] at h
      cases emp with
      | w2 e =>
        simp only [] at h
        rcases hres : EP.process_w2_payroll e hours ((findK s.ytd_earnings eid).getD 0)
          with e' | r'
        · rw [hres] at h; simp at h
        · rw [hres] at h
          simp only [] at h
          rcases hy : findK s.ytd_earnings eid with _ | y
          · rw [hy] at h; simp at h
          · rw [hy] at h
            simp only [Prod.mk.injEq, Except.ok.injEq] at h
            obtain ⟨hr, hs, _⟩ := h
            subst hr
            rw [← hs]
            show findK (setK s.ytd_earnings eid (y + r'.gross_pay)) eid =
              some (y + r'.gross_pay)
            exact findK_setK s.ytd_earnings eid (y + r'.gross_pay) y hy
      | contractor c =>
        simp only [] at h
        rcases hres : EP.process_1099_payroll c hours with e' | r'
        · rw [hres] at h; simp at h
        · rw [hres] at h
          simp only [] at h
          rcases hy : findK s.ytd_earnings eid with _ | y
          · rw [hy] at h; simp at h
          · rw [hy] at h
            simp only [Prod.mk.injEq, Except.ok.injEq] at h
            obtain ⟨hr, hs, _⟩ := h
            subst hr
            rw [← hs]
            show findK (setK s.ytd_earnings eid (y + r'.gross_pay)) eid =
              some (y + r'.gross_pay)
            exact findK_setK s.ytd_earnings eid (y + r'.gross_pay) y hy
  · norm_num [EP.process_payroll, nearCapState, nearCapW2, findK, setK,
      EP.process_w2_payroll, EP.calculate_federal_withholding, EP.federalTaxBracketsDict,
      FEDERAL_TAX_BRACKETS, STANDARD_DEDUCTIONS, calcTaxFromBrackets,
      calcTaxFromBracketsAux, EP.calculate_fica_taxes, SOCIAL_SECURITY_RATE,
      MEDICARE_RATE, ADDITIONAL_MEDICARE_RATE, SOCIAL_SECURITY_WAGE_BASE,
      ADDITIONAL_MEDICARE_THRESHOLD, EP.calculate_state_tax, EP.PreTaxDeductions.total,
      pyRound2, roundHalfEvenInt, Except.map, min_def, max_def]
  · norm_num [EP.process_payroll, nearCapState, nearCapW2, findK, setK,
      EP.process_w2_payroll, EP.calculate_federal_withholding, EP.federalTaxBracketsDict,
      FEDERAL_TAX_BRACKETS, STANDARD_DEDUCTIONS, calcTaxFromBrackets,
      calcTaxFromBracketsAux, EP.calculate_fica_taxes, SOCIAL_SECURITY_RATE,
      MEDICARE_RATE, ADDITIONAL_MEDICARE_RATE, SOCIAL_SECURITY_WAGE_BASE,
      ADDITIONAL_MEDICARE_THRESHOLD, EP.calculate_state_tax, EP.PreTaxDeductions.total,
      pyRound2, roundHalfEvenInt, Except.map, min_def, max_def]

/-- All-zero paystub produced for the sample worker at zero hours. -/
def w0Result : EP.PaystubResult :=
  { employee_name := "Jane", employee_type := "W-2 Employee" }

/-- C9 witness: a concrete successful call (sample worker, zero hours) for
which the YTD-commit equation of the theorem holds. -/
theorem process_payroll_updates_ytd_not_idempotent_witness :
    EP.process_payroll sampleState "e1" 0 =
      (Except.ok w0Result, sampleState,
        [EP.LedgerOp.read "e1", EP.LedgerOp.commit "e1" 0]) ∧
    findK sampleState.ytd_earnings "e1" =
      some ((findK sampleState.ytd_earnings "e1").getD 0 + w0Result.gross_pay) := by
  have h : EP.process_payroll sampleState "e1" 0 =
      (Except.ok w0Result, sampleState,
        [EP.LedgerOp.read "e1", EP.LedgerOp.commit "e1" 0]) := by
    norm_num [EP.process_payroll, sampleState, sampleW2, w0Result, findK, setK,
      EP.process_w2_payroll, EP.calculate_federal_withholding, EP.federalTaxBracketsDict,
      FEDERAL_TAX_BRACKETS, STANDARD_DEDUCTIONS, calcTaxFromBrackets,
      calcTaxFromBracketsAux, EP.calculate_fica_taxes, SOCIAL_SECURITY_RATE,
      MEDICARE_RATE, ADDITIONAL_MEDICARE_RATE, SOCIAL_SECURITY_WAGE_BASE,
      ADDITIONAL_MEDICARE_THRESHOLD, EP.calculate_state_tax, EP.PreTaxDeductions.total,
      pyRound2, roundHalfEvenInt, min_def, max_def]
  exact ⟨h,
    (process_payroll_updates_ytd_not_idempotent sampleState "e1" 0 w0Result sampleState
      [EP.LedgerOp.read "e1", EP.LedgerOp.commit "e1" 0] h).1⟩
